import Mathlib

/-!
Shallow embedding of the adminforth-foreign-inline-list plugin
(src/index.ts and src/custom/InlineList.vue) and proofs of the
specification claims about it.

Conventions of the embedding:
* JS objects become structures; optional / possibly-undefined JS fields
  become `Option` fields.
* The in-place mutation performed by `modifyResourceConfig` on
  `adminforth.config.resources` is modelled by returning the final state;
  `clone` is a deep copy in the source, so building a fresh value is the
  faithful translation.
* External callbacks (the `suggestIfTypo` helper of the adminforth
  package, the user-supplied `modifyTableResourceConfig` and
  `defaultFilters` callbacks, and the dynamic `new plugin.constructor`
  dispatch) are parameters of the embedding.
* Thrown JS errors become `Except.error`; a JS `TypeError` crash coming
  from dereferencing `undefined` is modelled as `Option.none` results.
-/

namespace ForeignInlineList

/-- Target entry of a polymorphic foreign reference (column config field
`foreignResource.polymorphicResources[i]`). -/
structure ForeignRefTarget where
  resourceId : String
deriving DecidableEq, Repr, Inhabited

/-- The `foreignResource` field of a column configuration, as read by the
plugin (`resourceId`, `polymorphicResources`, `polymorphicOn`). -/
structure ForeignRef where
  resourceId : String
  polymorphicResources : Option (List ForeignRefTarget)
  polymorphicOn : Option String
deriving DecidableEq, Repr, Inhabited

/-- The subset of an AdminForth column configuration referenced by the
plugin: its name, label, virtual flag, `foreignResource` reference and
primary-key flag.  UI-only fields (`showIn`, `components`) are carried by
the host framework and never inspected by the verified claims. -/
structure Column where
  name : String
  label : String
  virtual : Bool
  foreignResource : Option ForeignRef
  primaryKey : Bool
deriving DecidableEq, Repr, Inhabited

/-- A named field group of a resource (`groupName` plus the list of column
names it shows). -/
structure FieldGroup where
  groupName : String
  columns : List String
deriving DecidableEq, Repr, Inhabited

/-- The subset of `resourceConfig.options` used by the plugin: the four
field-group collections. -/
structure ResourceOptions where
  fieldGroups : Option (List FieldGroup)
  createFieldGroups : Option (List FieldGroup)
  editFieldGroups : Option (List FieldGroup)
  showFieldGroups : Option (List FieldGroup)
deriving DecidableEq, Repr, Inhabited

/-- A plugin instance attached to a resource.  `ctorName` identifies the
JS constructor (`plugin.constructor`), `pluginOptions` is the opaque
options value the instance was constructed with, `activationOrder` drives
the activation sort. -/
structure PluginInst where
  ctorName : String
  pluginOptions : String
  activationOrder : Int
deriving DecidableEq, Repr, Inhabited

/-- An AdminForth resource configuration, restricted to the fields the
plugin reads or writes. -/
structure Resource where
  resourceId : String
  label : String
  columns : List Column
  options : Option ResourceOptions
  plugins : List PluginInst
deriving DecidableEq, Repr, Inhabited

/-- The global AdminForth configuration (`adminforth.config`): the
resource registry. -/
structure Config where
  resources : List Resource
deriving DecidableEq, Repr, Inhabited

/-- The `placeInGroup` plugin option. -/
structure PlaceInGroup where
  name : String
  position : Int
deriving DecidableEq, Repr

/-- The plugin options relevant to `modifyResourceConfig`.  The
`defaultFilters` callback is a function and is passed separately where it
is needed (the `get_default_filters` handler). -/
structure PluginOptions where
  foreignResourceId : String
  placeInGroup : Option PlaceInGroup
  disableForeignListResourceRefColumn : Bool
deriving DecidableEq, Repr

/-- A filter predicate sent to `get_resource_data`; `V` is the type of
filter values. -/
structure FilterParam (V : Type) where
  field : String
  operator : String
  value : V
deriving DecidableEq, Repr

/-- Marker substring used in the resourceId of every virtual copy. -/
def inlineListMarker : String := "_inline_list__from_"

/-- The virtual column injected into the host resource
(src/index.ts lines 63-86; UI-only fields omitted). -/
def newColumn (foreignId : String) : Column :=
  { name := "foreignInlineList_" ++ foreignId
  , label := "Foreign Inline List"
  , virtual := true
  , foreignResource := none
  , primaryKey := false }

/-- Error message thrown when the configured foreign resource id is not
registered (src/index.ts line 58). -/
def missingResourceMsg (foreignResourceId : String) (similar : Option String) : String :=
  "ForeignInlineListPlugin: Resource with ID \"" ++ foreignResourceId ++ "\" not found. " ++
    (match similar with
     | some s => "Did you mean \"" ++ s ++ "\"?"
     | none => "")

/-- Error message thrown for an out-of-bounds `placeInGroup.position`
(src/index.ts line 105). -/
def invalidPositionMsg (position : Int) (len : Nat) (groupName : String) : String :=
  "ForeignInlineListPlugin: Invalid position " ++ toString position ++
    ". Must be between 0 and " ++ toString len ++ " for group \"" ++ groupName ++ "\""

/-- Replace the first group named `gname` with `f` applied to it; the JS
source obtains that group by `find` and mutates it in place. -/
def updateFirstGroup (gs : List FieldGroup) (gname : String) (f : FieldGroup → FieldGroup) :
    List FieldGroup :=
  match gs with
  | [] => []
  | g :: rest =>
    if g.groupName == gname then f g :: rest
    else g :: updateFirstGroup rest gname f

/-- Insert the new column into the host's column list next to the group
neighbour (src/index.ts lines 110-114): the name at `position - 1` of the
group is looked up in `cols` by `findIndex`, and the column is spliced in
right after it; a failed lookup yields JS index `-1`, so the column lands
at the front. -/
def insertAt (cols : List Column) (nc : Column) (g : FieldGroup) (p : Nat) : List Column :=
  let beforeIdx : Int :=
    match (if p = 0 then none else g.columns.get? (p - 1)) with
    | none => -1
    | some nm =>
      match cols.findIdx? (fun c => c.name == nm) with
      | none => -1
      | some i => (i : Int)
  List.insertIdx (beforeIdx + 1).toNat nc cols

/-- One iteration of the `fieldGroupTypes` loop (src/index.ts
lines 98-121) for a single group collection.  The running state is the
host column list together with the `columnAdded` flag. -/
def groupStep (gname : String) (position : Int) (nc : Column)
    (gs? : Option (List FieldGroup)) (st : List Column × Bool) :
    Except String (Option (List FieldGroup) × (List Column × Bool)) :=
  match (gs?.getD []).find? (fun g => g.groupName == gname) with
  | none => .ok (gs?, st)
  | some g =>
    if position < 0 ∨ position > (g.columns.length : Int) then
      .error (invalidPositionMsg position g.columns.length gname)
    else
      let p := position.toNat
      let st' := if st.2 then st else (insertAt st.1 nc g p, true)
      .ok (some (updateFirstGroup (gs?.getD []) gname
            (fun g0 => { g0 with columns := List.insertIdx p nc.name g0.columns })), st')

/-- The four group collections in the order the source iterates them. -/
def groupCollections (ropts : Option ResourceOptions) : List (Option (List FieldGroup)) :=
  [ ropts.bind (·.fieldGroups)
  , ropts.bind (·.createFieldGroups)
  , ropts.bind (·.editFieldGroups)
  , ropts.bind (·.showFieldGroups) ]

/-- Placement of the new virtual column (src/index.ts lines 88-124):
either threaded through the four group collections, or appended at the
end of the host's columns when no (truthy) `placeInGroup.name` is set. -/
def placeColumn (pig? : Option PlaceInGroup) (ropts : Option ResourceOptions)
    (cols : List Column) (nc : Column) :
    Except String (Option ResourceOptions × List Column) :=
  match pig? with
  | none => .ok (ropts, cols ++ [nc])
  | some pig =>
    if pig.name = "" then .ok (ropts, cols ++ [nc])
    else
      match groupStep pig.name pig.position nc (ropts.bind (·.fieldGroups)) (cols, false) with
      | .error e => .error e
      | .ok (fg, st1) =>
        match groupStep pig.name pig.position nc (ropts.bind (·.createFieldGroups)) st1 with
        | .error e => .error e
        | .ok (cg, st2) =>
          match groupStep pig.name pig.position nc (ropts.bind (·.editFieldGroups)) st2 with
          | .error e => .error e
          | .ok (eg, st3) =>
            match groupStep pig.name pig.position nc (ropts.bind (·.showFieldGroups)) st3 with
            | .error e => .error e
            | .ok (sg, st4) =>
              let ropts' : Option ResourceOptions :=
                match ropts with
                | none => none
                | some _ =>
                  some { fieldGroups := fg, createFieldGroups := cg
                       , editFieldGroups := eg, showFieldGroups := sg }
              .ok (ropts', st4.1)

/-- Change the foreign reference of a column to point at `newId`. -/
def setRefTarget (c : Column) (newId : String) : Column :=
  match c.foreignResource with
  | some fr => { c with foreignResource := some { fr with resourceId := newId } }
  | none => c

/-- Rewire the first column whose `foreignResource.resourceId` equals
`target` to point at `newId` (src/index.ts lines 134-137; `find` returns
the first match and it is mutated in place). -/
def rewireFirst (cols : List Column) (target newId : String) : List Column :=
  match cols with
  | [] => []
  | c :: rest =>
    match c.foreignResource with
    | some fr =>
      if fr.resourceId == target then
        { c with foreignResource := some { fr with resourceId := newId } } :: rest
      else c :: rewireFirst rest target newId
    | none => c :: rewireFirst rest target newId

/-- Back-reference adjustment when the plugin is installed on a resource
that is itself a virtual copy (src/index.ts lines 130-138). -/
def rewireForeignRefs (hostId : String) (cols : List Column) : List Column :=
  if (hostId.splitOn inlineListMarker).length > 1 then
    rewireFirst cols ((hostId.splitOn inlineListMarker).headD "") hostId
  else cols

/-- Composition of the virtual copy at the moment it is pushed into
`adminforth.config.resources` (src/index.ts lines 127-145): deep clone
with an empty plugin list, back-reference rewiring, removal of previously
injected `foreignInlineList_` columns, and the new resourceId. -/
def composeCopy (foreign : Resource) (hostId idNew : String) : Resource :=
  let base := { foreign with plugins := ([] : List PluginInst) }
  let cols1 := rewireForeignRefs hostId base.columns
  let cols2 := cols1.filter (fun c => !(c.name.startsWith "foreignInlineList_"))
  { base with columns := cols2, resourceId := idNew }

/-- Re-instantiation of a foreign plugin (src/index.ts lines 152-157):
`new plugin.constructor(plugin.pluginOptions)` keeps the constructor and
the options; the fresh instance's `activationOrder` is whatever that
constructor assigns, modelled by the `ctorActivation` parameter. -/
def reinstantiate (ctorActivation : String → String → Int) (p : PluginInst) : PluginInst :=
  { ctorName := p.ctorName
  , pluginOptions := p.pluginOptions
  , activationOrder := ctorActivation p.ctorName p.pluginOptions }

/-- Result of a successful `modifyResourceConfig` run.  `pushedCopy` is
the copy at the moment of the `push` (line 145), `copy` the same object
after `modifyTableResourceConfig` and plugin re-instantiation,
`activationTrace` the order in which the copied plugins' lifecycle hooks
are invoked (lines 160-171); the hooks' own effects belong to the foreign
plugins, not to this code. -/
structure Outcome where
  foreignResource : Resource
  hostResource : Resource
  pushedCopy : Resource
  copy : Resource
  config : Config
  activationTrace : List PluginInst
deriving DecidableEq, Repr, Inhabited

/-- Construction of the successful outcome (src/index.ts lines 60 and
127-171), given the resolved foreign resource and the placed column
layout of the host: clone composition, push, `modifyTableResourceConfig`,
plugin re-instantiation and the ascending activation sort. -/
def mkOutcome (ctorActivation : String → String → Int)
    (mtrc : Option (Resource → Resource)) (foreign : Resource)
    (cfg : Config) (resourceConfig : Resource)
    (ropts' : Option ResourceOptions) (cols' : List Column) : Outcome :=
  let idOfNewCopy := foreign.resourceId ++ inlineListMarker ++ resourceConfig.resourceId ++ "__"
  let host' := { resourceConfig with options := ropts', columns := cols' }
  let foreignAtClone := if foreign.resourceId == resourceConfig.resourceId then host' else foreign
  let pushedCopy := composeCopy foreignAtClone resourceConfig.resourceId idOfNewCopy
  let afterMtrc := match mtrc with | none => pushedCopy | some f => f pushedCopy
  let allPlugins :=
    (afterMtrc.plugins ++ foreignAtClone.plugins.map (reinstantiate ctorActivation)).mergeSort
      (fun a b => decide (a.activationOrder ≤ b.activationOrder))
  let copyFinal := { afterMtrc with plugins := allPlugins }
  let resources' := cfg.resources.map
    (fun r => if r.resourceId == resourceConfig.resourceId then host' else r) ++ [copyFinal]
  { foreignResource := foreign
  , hostResource := host'
  , pushedCopy := pushedCopy
  , copy := copyFinal
  , config := { resources := resources' }
  , activationTrace := allPlugins }

/-- The plugin's `modifyResourceConfig` hook (src/index.ts lines 51-174).
`suggest` embeds the external `suggestIfTypo` helper, `ctorActivation`
the dynamic constructor dispatch, `mtrc` the user's
`modifyTableResourceConfig` callback. -/
def modifyResourceConfig (suggest : List String → String → Option String)
    (ctorActivation : String → String → Int)
    (mtrc : Option (Resource → Resource))
    (options : PluginOptions) (cfg : Config) (resourceConfig : Resource) :
    Except String Outcome :=
  match cfg.resources.find? (fun r => r.resourceId == options.foreignResourceId) with
  | none =>
    .error (missingResourceMsg options.foreignResourceId
      (suggest (cfg.resources.map (·.resourceId)) options.foreignResourceId))
  | some foreign =>
    match placeColumn options.placeInGroup resourceConfig.options resourceConfig.columns
        (newColumn foreign.resourceId) with
    | .error e => .error e
    | .ok (ropts', cols') =>
      .ok (mkOutcome ctorActivation mtrc foreign cfg resourceConfig ropts' cols')

/-- Lift a predicate over the success case of an `Except` result. -/
def onOk {α : Type} (e : Except String α) (P : α → Prop) : Prop :=
  match e with
  | .error _ => True
  | .ok a => P a

/-- Possible shapes of the value returned by the user's `defaultFilters`
callback, as seen by the `Array.isArray` check. -/
inductive DFValue (V : Type) where
  | arr (filters : List (FilterParam V))
  | nonArray
deriving DecidableEq

/-- Response payload of the `get_default_filters` endpoint. -/
structure DFResponse (V : Type) where
  ok : Bool
  error : Option String
  filters : Option (List (FilterParam V))
deriving DecidableEq

/-- The `get_default_filters` request handler (src/index.ts lines 31-48).
A record is a JS object modelled as a lookup function; an absent or falsy
`body.record` is `none`. -/
def getDefaultFiltersHandler {V : Type}
    (defaultFilters : Option ((String → V) → DFValue V))
    (record? : Option (String → V)) : Except String (DFResponse V) :=
  match defaultFilters with
  | none => .ok { ok := false, error := some "No default filters function defined", filters := none }
  | some df =>
    match record? with
    | none => .ok { ok := false, error := some "No record provided in request body", filters := none }
    | some record =>
      match df record with
      | .nonArray => .error "defauiltFilters must return an array of FilterParams"
      | .arr fs => .ok { ok := true, error := none, filters := some fs }

/-- Client reaction to a `get_default_filters` response
(src/custom/InlineList.vue lines 345-358). -/
inductive DFClientEffect (V : Type) where
  | setDefaultFilters (filters : List (FilterParam V))
  | toastError (msg : String)
deriving DecidableEq

/-- The `getDefaultFilters` function of the component: on `ok` it stores
the filters, otherwise it surfaces `data.error` as an error toast. -/
def getDefaultFiltersClient {V : Type} (resp : DFResponse V) : DFClientEffect V :=
  if resp.ok then .setDefaultFilters (resp.filters.getD [])
  else .toastError (resp.error.getD "")

/-- The `listResourceRefColumn` computed property
(src/custom/InlineList.vue lines 176-183): the first column of the list
resource referencing the host resource, honouring polymorphic
references; `null` when the ref column is disabled. -/
def listResourceRefColumn (hostResourceId : String) (disable : Bool)
    (listResource : Resource) : Option Column :=
  if disable then none
  else listResource.columns.find? (fun c =>
    match c.foreignResource with
    | some fr =>
      match fr.polymorphicResources with
      | some prs => prs.any (fun pr => pr.resourceId == hostResourceId)
      | none => fr.resourceId == hostResourceId
    | none => false)

/-- The `endFilters` computed property (src/custom/InlineList.vue
lines 203-243), which is exactly the filter list `getList` sends to
`/get_resource_data` (line 324).  `record` is the context record,
`refPk` models the `.pk` projection applied when the host primary-key
column is itself a foreign reference.  `none` models the JS crash when
the host resource has no primary-key column. -/
def endFilters {V : Type} (listResource : Option Resource) (disable : Bool)
    (hostResource : Resource) (record : String → V) (refPk : V → V)
    (defaultFilters userFilters : List (FilterParam V)) :
    Option (List (FilterParam V)) :=
  match listResource with
  | none => some []
  | some lr =>
    if disable then some (defaultFilters ++ userFilters)
    else
      match listResourceRefColumn hostResource.resourceId false lr with
      | none => some []
      | some refCol =>
        match hostResource.columns.find? (fun c => c.primaryKey) with
        | none => none
        | some pk =>
          let v := match pk.foreignResource with
            | some _ => refPk (record pk.name)
            | none => record pk.name
          some (defaultFilters ++ userFilters ++ [{ field := refCol.name, operator := "eq", value := v }])

/-- Body of the `start_bulk_action` request built by the component
(src/custom/InlineList.vue lines 284-292). -/
structure BulkRequestBody where
  resourceId : String
  actionId : String
  recordIds : List String
deriving DecidableEq, Repr

/-- Response payload of the `start_bulk_action` endpoint. -/
structure BulkResponse where
  ok : Bool
  error : Option String
  successMessage : Option String
deriving DecidableEq, Repr

/-- Server-side result of a bulk action: the response sent back plus
whether the action body was actually executed. -/
structure BulkServerResult where
  response : BulkResponse
  executed : Bool
deriving DecidableEq, Repr

/-- Modelled from the spec: the `start_bulk_action` endpoint (spec §6)
"executes a named bulk action against selected record IDs, subject to an
`allowed` check", and per §7 reports errors as an error-string payload.
The handler itself lives in the host framework, not in this repository's
sources; `allowed` is the value of the action's `allowed` predicate on
the request. -/
def startBulkActionServer (allowed : Bool) (successMessage : Option String) :
    BulkServerResult :=
  if allowed then
    { response := { ok := true, error := none, successMessage := successMessage }
    , executed := true }
  else
    { response := { ok := false, error := some "Action is not allowed", successMessage := none }
    , executed := false }

/-- Client-side outcome of `startBulkAction`
(src/custom/InlineList.vue lines 272-309): on `ok` the selection is
cleared, the list refreshed and an optional success alert shown; a
present `error` field is surfaced as an error toast. -/
structure BulkClientOutcome where
  checkboxesCleared : Bool
  listRefreshed : Bool
  successAlert : Option String
  errorToast : Option String
deriving DecidableEq, Repr

/-- The reaction of `startBulkAction` to the server response. -/
def startBulkActionClient (resp : BulkResponse) : BulkClientOutcome :=
  { checkboxesCleared := resp.ok
  , listRefreshed := resp.ok
  , successAlert := if resp.ok then resp.successMessage else none
  , errorToast := resp.error }

/-- The request body `startBulkAction` submits: the list resource id, the
action id and the currently selected record ids. -/
def bulkRequestBody (listResourceId actionId : String) (checkboxes : List String) :
    BulkRequestBody :=
  { resourceId := listResourceId, actionId := actionId, recordIds := checkboxes }

/-- The column's foreign target id, as compared by the rewiring step. -/
def colRefId (c : Column) : Option String := c.foreignResource.map (·.resourceId)

/-! Concrete fixtures used by the witness and counterexample theorems. -/

/-- Example context record. -/
def recA : String → String := fun k => "v_" ++ k

/-- Example `defaultFilters` callback returning an array. -/
def dfGood : (String → String) → DFValue String :=
  fun r => .arr [{ field := "age", operator := "gt", value := r "age" }]

/-- Example `defaultFilters` callback returning a non-array value. -/
def dfBad : (String → String) → DFValue String := fun _ => .nonArray

/-- Second non-array example, keyed on the record. -/
def dfBad2 : (String → String) → DFValue String :=
  fun r => if r "kind" = "x" then .nonArray else .arr []

/-- Example list resource without any column referencing the host. -/
def lrNoRef : Resource :=
  { resourceId := "comments", label := "Comments"
  , columns := [{ name := "title", label := "Title", virtual := false
                , foreignResource := none, primaryKey := false }]
  , options := none, plugins := [] }

/-- Example list resource with a back-reference column to `posts`. -/
def lrWithRef : Resource :=
  { resourceId := "comments", label := "Comments"
  , columns :=
      [ { name := "title", label := "Title", virtual := false
        , foreignResource := none, primaryKey := false }
      , { name := "postId", label := "Post", virtual := false
        , foreignResource := some { resourceId := "posts", polymorphicResources := none, polymorphicOn := none }
        , primaryKey := false } ]
  , options := none, plugins := [] }

/-- Example host resource with a plain primary key. -/
def hostPosts : Resource :=
  { resourceId := "posts", label := "Posts"
  , columns := [{ name := "id", label := "Id", virtual := false
                , foreignResource := none, primaryKey := true }]
  , options := none, plugins := [] }

/-- Example default filter list. -/
def dfltFilters : List (FilterParam String) :=
  [{ field := "df", operator := "eq", value := "1" }]

/-- Example plain column `a`. -/
def colA : Column :=
  { name := "a", label := "A", virtual := false, foreignResource := none, primaryKey := false }

/-- Example plain column `b`. -/
def colB : Column :=
  { name := "b", label := "B", virtual := false, foreignResource := none, primaryKey := false }

/-- Example resource options with one field group holding `a` and `b`. -/
def groupedOptions : ResourceOptions :=
  { fieldGroups := some [{ groupName := "main", columns := ["a", "b"] }]
  , createFieldGroups := none, editFieldGroups := none, showFieldGroups := none }

/-- Example host resource carrying `groupedOptions`. -/
def hostGrouped : Resource :=
  { resourceId := "users", label := "Users", columns := [colA, colB]
  , options := some groupedOptions, plugins := [] }

/-- Example registry containing the grouped host and a foreign resource. -/
def cfgGrouped : Config := { resources := [hostGrouped, hostPosts] }

/-- Out-of-bounds placement for the two-column group. -/
def pigOut : PlaceInGroup := { name := "main", position := 5 }

/-- In-bounds placement for the two-column group. -/
def pigIn : PlaceInGroup := { name := "main", position := 1 }

/-- Plugin options targeting `posts` with the given group placement. -/
def optsPig (pig : PlaceInGroup) : PluginOptions :=
  { foreignResourceId := "posts", placeInGroup := some pig
  , disableForeignListResourceRefColumn := false }

/-- The outcome of the in-bounds grouped run, used by witnesses. -/
def outPlacedW : Outcome :=
  (modifyResourceConfig (fun _ _ => none) (fun _ _ => 0) none (optsPig pigIn)
    cfgGrouped hostGrouped).toOption.getD default

/-- Plugin options targeting `posts` without group placement. -/
def optsPlain : PluginOptions :=
  { foreignResourceId := "posts", placeInGroup := none
  , disableForeignListResourceRefColumn := false }

/-- Application of the `modifyTableResourceConfig` callback when present
(src/index.ts lines 147-149). -/
def afterMtrcOf (mtrc : Option (Resource → Resource)) (r : Resource) : Resource :=
  match mtrc with
  | none => r
  | some f => f r

/-- The in-place `.sort((a, b) => a.activationOrder - b.activationOrder)`
of src/index.ts line 160: a stable ascending sort by activation order. -/
def sortPlugins (ps : List PluginInst) : List PluginInst :=
  ps.mergeSort (fun a b => decide (a.activationOrder ≤ b.activationOrder))

/-- The pushed copy in the ordinary (non-self-referencing) installation. -/
def pushedCopyOf (foreign host : Resource) : Resource :=
  composeCopy foreign host.resourceId
    (foreign.resourceId ++ inlineListMarker ++ host.resourceId ++ "__")

/-- The final state of the copy in the ordinary installation: the pushed
copy after `modifyTableResourceConfig`, with the re-instantiated plugins
of the foreign resource sorted in ascending activation order. -/
def copyFinalOf (ctorActivation : String → String → Int)
    (mtrc : Option (Resource → Resource)) (foreign host : Resource) : Resource :=
  let am := afterMtrcOf mtrc (pushedCopyOf foreign host)
  { am with plugins :=
      sortPlugins (am.plugins ++ foreign.plugins.map (reinstantiate ctorActivation)) }

/-! Theorems.  First, equation and inversion lemmas for
`modifyResourceConfig`, shared by the claim proofs below. -/

/-- Equation: a missing foreign resource gives the typo-suggestion
error. -/
theorem modifyResourceConfig_eq_none (suggest : List String → String → Option String)
    (ctorActivation : String → String → Int) (mtrc : Option (Resource → Resource))
    (options : PluginOptions) (cfg : Config) (host : Resource)
    (h : cfg.resources.find? (fun r => r.resourceId == options.foreignResourceId) = none) :
    modifyResourceConfig suggest ctorActivation mtrc options cfg host =
      .error (missingResourceMsg options.foreignResourceId
        (suggest (cfg.resources.map (·.resourceId)) options.foreignResourceId)) := by
  unfold modifyResourceConfig
  rw [h]

/-- Equation: with the foreign resource resolved and the column placed,
the run succeeds with the composed outcome. -/
theorem modifyResourceConfig_eq_ok (suggest : List String → String → Option String)
    (ctorActivation : String → String → Int) (mtrc : Option (Resource → Resource))
    (options : PluginOptions) (cfg : Config) (host : Resource)
    (foreign : Resource) (ropts' : Option ResourceOptions) (cols' : List Column)
    (hf : cfg.resources.find? (fun r => r.resourceId == options.foreignResourceId) = some foreign)
    (hp : placeColumn options.placeInGroup host.options host.columns
        (newColumn foreign.resourceId) = .ok (ropts', cols')) :
    modifyResourceConfig suggest ctorActivation mtrc options cfg host =
      .ok (mkOutcome ctorActivation mtrc foreign cfg host ropts' cols') := by
  unfold modifyResourceConfig
  rw [hf]
  dsimp only
  rw [hp]

/-- Equation: a column-placement error aborts the run with that error. -/
theorem modifyResourceConfig_eq_err (suggest : List String → String → Option String)
    (ctorActivation : String → String → Int) (mtrc : Option (Resource → Resource))
    (options : PluginOptions) (cfg : Config) (host : Resource)
    (foreign : Resource) (e : String)
    (hf : cfg.resources.find? (fun r => r.resourceId == options.foreignResourceId) = some foreign)
    (hp : placeColumn options.placeInGroup host.options host.columns
        (newColumn foreign.resourceId) = .error e) :
    modifyResourceConfig suggest ctorActivation mtrc options cfg host = .error e := by
  unfold modifyResourceConfig
  rw [hf]
  dsimp only
  rw [hp]

/-- Inversion of a successful `modifyResourceConfig` run. -/
theorem modifyResourceConfig_ok_inv (suggest : List String → String → Option String)
    (ctorActivation : String → String → Int) (mtrc : Option (Resource → Resource))
    (options : PluginOptions) (cfg : Config) (host : Resource) (out : Outcome)
    (hok : modifyResourceConfig suggest ctorActivation mtrc options cfg host = .ok out) :
    ∃ foreign ropts' cols',
      cfg.resources.find? (fun r => r.resourceId == options.foreignResourceId) = some foreign ∧
      placeColumn options.placeInGroup host.options host.columns
        (newColumn foreign.resourceId) = .ok (ropts', cols') ∧
      out = mkOutcome ctorActivation mtrc foreign cfg host ropts' cols' := by
  cases hfind : cfg.resources.find? (fun r => r.resourceId == options.foreignResourceId) with
  | none =>
    rw [modifyResourceConfig_eq_none suggest ctorActivation mtrc options cfg host hfind] at hok
    exact Except.noConfusion hok
  | some foreign =>
    cases hpc : placeColumn options.placeInGroup host.options host.columns
        (newColumn foreign.resourceId) with
    | error e =>
      rw [modifyResourceConfig_eq_err suggest ctorActivation mtrc options cfg host foreign e
        hfind hpc] at hok
      exact Except.noConfusion hok
    | ok pr =>
      obtain ⟨ropts', cols'⟩ := pr
      rw [modifyResourceConfig_eq_ok suggest ctorActivation mtrc options cfg host foreign
        ropts' cols' hfind hpc] at hok
      injection hok with h
      exact ⟨foreign, ropts', cols', rfl, hpc, h.symm⟩

/-- A `groupStep` that succeeded respected the position bounds of the
group it matched. -/
theorem groupStep_ok_bounds (gname : String) (pos : Int) (nc : Column)
    (gs? : Option (List FieldGroup)) (st : List Column × Bool)
    (r : Option (List FieldGroup) × (List Column × Bool))
    (hok : groupStep gname pos nc gs? st = .ok r) :
    ∀ g, (gs?.getD []).find? (fun g0 => g0.groupName == gname) = some g →
      0 ≤ pos ∧ pos ≤ (g.columns.length : Int) := by
  intro g hfind
  unfold groupStep at hok
  rw [hfind] at hok
  dsimp only at hok
  split at hok
  · exact Except.noConfusion hok
  · rename_i hcond
    push_neg at hcond
    exact hcond

/-- A `groupStep` whose matched group (if any) has the position in bounds
does not throw. -/
theorem groupStep_isOk (gname : String) (pos : Int) (nc : Column)
    (gs? : Option (List FieldGroup)) (st : List Column × Bool)
    (hb : ∀ g, (gs?.getD []).find? (fun g0 => g0.groupName == gname) = some g →
      0 ≤ pos ∧ pos ≤ (g.columns.length : Int)) :
    (groupStep gname pos nc gs? st).isOk = true := by
  unfold groupStep
  cases hfind : (gs?.getD []).find? (fun g0 => g0.groupName == gname) with
  | none => rfl
  | some g =>
    have hbb := hb g hfind
    dsimp only
    rw [if_neg (by omega)]
    rfl

/-- Equation for a `groupStep` that found a group and has the position in
bounds. -/
theorem groupStep_eq_found (gname : String) (pos : Int) (nc : Column)
    (gs? : Option (List FieldGroup)) (st : List Column × Bool) (g : FieldGroup)
    (hfind : (gs?.getD []).find? (fun g0 => g0.groupName == gname) = some g)
    (h0 : 0 ≤ pos) (h1 : pos ≤ (g.columns.length : Int)) :
    groupStep gname pos nc gs? st =
      .ok (some (updateFirstGroup (gs?.getD []) gname
            (fun g0 => { g0 with columns := List.insertIdx pos.toNat nc.name g0.columns })),
          if st.2 then st else (insertAt st.1 nc g pos.toNat, true)) := by
  unfold groupStep
  rw [hfind]
  dsimp only
  rw [if_neg (by omega)]

/-- Equation for a `groupStep` that found a group and has the position out
of bounds: it throws the invalid-position error. -/
theorem groupStep_eq_found_err (gname : String) (pos : Int) (nc : Column)
    (gs? : Option (List FieldGroup)) (st : List Column × Bool) (g : FieldGroup)
    (hfind : (gs?.getD []).find? (fun g0 => g0.groupName == gname) = some g)
    (hbad : pos < 0 ∨ (g.columns.length : Int) < pos) :
    groupStep gname pos nc gs? st = .error (invalidPositionMsg pos g.columns.length gname) := by
  unfold groupStep
  rw [hfind]
  dsimp only
  rw [if_pos (by omega)]

/-- Equation for a `groupStep` on a collection with no matching group. -/
theorem groupStep_eq_notfound (gname : String) (pos : Int) (nc : Column)
    (gs? : Option (List FieldGroup)) (st : List Column × Bool)
    (hfind : (gs?.getD []).find? (fun g0 => g0.groupName == gname) = none) :
    groupStep gname pos nc gs? st = .ok (gs?, st) := by
  unfold groupStep
  rw [hfind]

/-- Once the column has been added, a successful `groupStep` leaves the
column state untouched. -/
theorem groupStep_ok_added (gname : String) (pos : Int) (nc : Column)
    (gs? : Option (List FieldGroup)) (cols : List Column)
    (r : Option (List FieldGroup) × (List Column × Bool))
    (hok : groupStep gname pos nc gs? (cols, true) = .ok r) : r.2 = (cols, true) := by
  unfold groupStep at hok
  cases hfind : (gs?.getD []).find? (fun g0 => g0.groupName == gname) with
  | none =>
    rw [hfind] at hok
    injection hok with h
    rw [← h]
  | some g =>
    rw [hfind] at hok
    dsimp only at hok
    split at hok
    · exact Except.noConfusion hok
    · injection hok with h
      rw [← h]
      rfl

/-- Inversion of a successful `placeColumn` run with a (truthy) group
name: the four `groupStep`s all succeeded and the results are threaded in
source order. -/
theorem placeColumn_some_inv (pig : PlaceInGroup) (ropts : Option ResourceOptions)
    (cols : List Column) (nc : Column) (pr : Option ResourceOptions × List Column)
    (hok : placeColumn (some pig) ropts cols nc = .ok pr) (hname : ¬ pig.name = "") :
    ∃ fg st1 cg st2 eg st3 sg st4,
      groupStep pig.name pig.position nc (ropts.bind (·.fieldGroups)) (cols, false) =
        .ok (fg, st1) ∧
      groupStep pig.name pig.position nc (ropts.bind (·.createFieldGroups)) st1 = .ok (cg, st2) ∧
      groupStep pig.name pig.position nc (ropts.bind (·.editFieldGroups)) st2 = .ok (eg, st3) ∧
      groupStep pig.name pig.position nc (ropts.bind (·.showFieldGroups)) st3 = .ok (sg, st4) ∧
      pr.2 = st4.1 ∧
      (ropts = none → pr.1 = none) ∧
      (∀ o, ropts = some o →
        pr.1 = some { fieldGroups := fg, createFieldGroups := cg
                    , editFieldGroups := eg, showFieldGroups := sg }) := by
  unfold placeColumn at hok
  dsimp only at hok
  rw [if_neg hname] at hok
  cases h1 : groupStep pig.name pig.position nc (ropts.bind (·.fieldGroups)) (cols, false) with
  | error e => rw [h1] at hok; exact Except.noConfusion hok
  | ok r1 =>
    obtain ⟨fg, st1⟩ := r1
    rw [h1] at hok
    dsimp only at hok
    cases h2 : groupStep pig.name pig.position nc (ropts.bind (·.createFieldGroups)) st1 with
    | error e => rw [h2] at hok; exact Except.noConfusion hok
    | ok r2 =>
      obtain ⟨cg, st2⟩ := r2
      rw [h2] at hok
      dsimp only at hok
      cases h3 : groupStep pig.name pig.position nc (ropts.bind (·.editFieldGroups)) st2 with
      | error e => rw [h3] at hok; exact Except.noConfusion hok
      | ok r3 =>
        obtain ⟨eg, st3⟩ := r3
        rw [h3] at hok
        dsimp only at hok
        cases h4 : groupStep pig.name pig.position nc (ropts.bind (·.showFieldGroups)) st3 with
        | error e => rw [h4] at hok; exact Except.noConfusion hok
        | ok r4 =>
          obtain ⟨sg, st4⟩ := r4
          rw [h4] at hok
          dsimp only at hok
          injection hok with h
          subst h
          refine ⟨fg, st1, cg, st2, eg, st3, sg, st4, rfl, h2, h3, h4, rfl, ?_, ?_⟩
          · intro h0
            subst h0
            rfl
          · intro o h0
            subst h0
            rfl

/-- A successful `placeColumn` run respected the bounds of every matched
group of every collection. -/
theorem placeColumn_ok_bounds (pig : PlaceInGroup) (ropts : Option ResourceOptions)
    (cols : List Column) (nc : Column) (pr : Option ResourceOptions × List Column)
    (hok : placeColumn (some pig) ropts cols nc = .ok pr) (hname : ¬ pig.name = "") :
    ∀ gs? ∈ groupCollections ropts, ∀ g,
      (gs?.getD []).find? (fun g0 => g0.groupName == pig.name) = some g →
      0 ≤ pig.position ∧ pig.position ≤ (g.columns.length : Int) := by
  obtain ⟨fg, st1, cg, st2, eg, st3, sg, st4, h1, h2, h3, h4, _, _, _⟩ :=
    placeColumn_some_inv pig ropts cols nc pr hok hname
  intro gs? hmem g hfind
  simp only [groupCollections, List.mem_cons, List.not_mem_nil, or_false] at hmem
  rcases hmem with h | h | h | h
  · subst h; exact groupStep_ok_bounds _ _ _ _ _ _ h1 g hfind
  · subst h; exact groupStep_ok_bounds _ _ _ _ _ _ h2 g hfind
  · subst h; exact groupStep_ok_bounds _ _ _ _ _ _ h3 g hfind
  · subst h; exact groupStep_ok_bounds _ _ _ _ _ _ h4 g hfind

/-- A `placeColumn` run whose matched groups all have the position in
bounds does not throw. -/
theorem placeColumn_isOk_of_bounds (pig : PlaceInGroup) (ropts : Option ResourceOptions)
    (cols : List Column) (nc : Column) (hname : ¬ pig.name = "")
    (hb : ∀ gs? ∈ groupCollections ropts, ∀ g,
      (gs?.getD []).find? (fun g0 => g0.groupName == pig.name) = some g →
      0 ≤ pig.position ∧ pig.position ≤ (g.columns.length : Int)) :
    (placeColumn (some pig) ropts cols nc).isOk = true := by
  have hb1 := hb (ropts.bind (·.fieldGroups)) (by simp [groupCollections])
  have hb2 := hb (ropts.bind (·.createFieldGroups)) (by simp [groupCollections])
  have hb3 := hb (ropts.bind (·.editFieldGroups)) (by simp [groupCollections])
  have hb4 := hb (ropts.bind (·.showFieldGroups)) (by simp [groupCollections])
  unfold placeColumn
  dsimp only
  rw [if_neg hname]
  cases h1 : groupStep pig.name pig.position nc (ropts.bind (·.fieldGroups)) (cols, false) with
  | error e =>
    have := groupStep_isOk pig.name pig.position nc (ropts.bind (·.fieldGroups)) (cols, false) hb1
    rw [h1] at this
    exact absurd this (by simp [Except.isOk, Except.toBool])
  | ok r1 =>
    obtain ⟨fg, st1⟩ := r1
    dsimp only
    cases h2 : groupStep pig.name pig.position nc (ropts.bind (·.createFieldGroups)) st1 with
    | error e =>
      have := groupStep_isOk pig.name pig.position nc (ropts.bind (·.createFieldGroups)) st1 hb2
      rw [h2] at this
      exact absurd this (by simp [Except.isOk, Except.toBool])
    | ok r2 =>
      obtain ⟨cg, st2⟩ := r2
      dsimp only
      cases h3 : groupStep pig.name pig.position nc (ropts.bind (·.editFieldGroups)) st2 with
      | error e =>
        have := groupStep_isOk pig.name pig.position nc (ropts.bind (·.editFieldGroups)) st2 hb3
        rw [h3] at this
        exact absurd this (by simp [Except.isOk, Except.toBool])
      | ok r3 =>
        obtain ⟨eg, st3⟩ := r3
        dsimp only
        cases h4 : groupStep pig.name pig.position nc (ropts.bind (·.showFieldGroups)) st3 with
        | error e =>
          have := groupStep_isOk pig.name pig.position nc (ropts.bind (·.showFieldGroups)) st3 hb4
          rw [h4] at this
          exact absurd this (by simp [Except.isOk, Except.toBool])
        | ok r4 =>
          obtain ⟨sg, st4⟩ := r4
          dsimp only
          rfl

/-- A `placeColumn` run aborts with the error of a failing first
`groupStep`. -/
theorem placeColumn_step1_err (pig : PlaceInGroup) (ropts : Option ResourceOptions)
    (cols : List Column) (nc : Column) (e : String) (hname : ¬ pig.name = "")
    (h1 : groupStep pig.name pig.position nc (ropts.bind (·.fieldGroups)) (cols, false) =
      .error e) :
    placeColumn (some pig) ropts cols nc = .error e := by
  unfold placeColumn
  dsimp only
  rw [if_neg hname, h1]

/-- `updateFirstGroup` only touches the first matching group, so a lookup
by the group name finds the updated group whenever the original lookup
found one. -/
theorem updateFirstGroup_find? (gs : List FieldGroup) (gname : String)
    (f : FieldGroup → FieldGroup) (hf : ∀ g, (f g).groupName = g.groupName) :
    (updateFirstGroup gs gname f).find? (fun g0 => g0.groupName == gname) =
      (gs.find? (fun g0 => g0.groupName == gname)).map f := by
  induction gs with
  | nil => rfl
  | cons g rest ih =>
    unfold updateFirstGroup
    by_cases h : (g.groupName == gname) = true
    · rw [if_pos h]
      have hpg : ((f g).groupName == gname) = true := by rw [hf g]; exact h
      rw [@List.find?_cons_of_pos FieldGroup (fun g0 => g0.groupName == gname) (f g) rest hpg,
          @List.find?_cons_of_pos FieldGroup (fun g0 => g0.groupName == gname) g rest h]
      rfl
    · rw [if_neg h]
      rw [@List.find?_cons_of_neg FieldGroup (fun g0 => g0.groupName == gname) g
            (updateFirstGroup rest gname f) h,
          @List.find?_cons_of_neg FieldGroup (fun g0 => g0.groupName == gname) g rest h]
      exact ih

/-- C10: at the moment the copied virtual resource is pushed into
`adminforth.config.resources`, none of its columns has a name starting
with `foreignInlineList_`, however many inline-list columns the original
foreign resource had accumulated: the copy is filtered through
`col.name.startsWith` before the push. -/
theorem pushedCopy_has_no_inline_list_columns
    (suggest : List String → String → Option String)
    (ctorActivation : String → String → Int) (mtrc : Option (Resource → Resource))
    (options : PluginOptions) (cfg : Config) (host : Resource) :
    onOk (modifyResourceConfig suggest ctorActivation mtrc options cfg host)
      (fun out => out.pushedCopy.columns.all
        (fun c => !(c.name.startsWith "foreignInlineList_")) = true) := by
  cases hres : modifyResourceConfig suggest ctorActivation mtrc options cfg host with
  | error e => exact True.intro
  | ok out =>
    obtain ⟨foreign, ropts', cols', hf, hp, hout⟩ :=
      modifyResourceConfig_ok_inv suggest ctorActivation mtrc options cfg host out hres
    subst hout
    simp only [onOk, mkOutcome, composeCopy]
    simp [List.all_eq_true, List.mem_filter]

/-- C6 (amended): the `get_default_filters` handler returns an
`{ error, ok := false }` payload when `defaultFilters` is not configured
or the body has no record; when `defaultFilters` applied to the record
returns an array it returns `{ ok := true, filters }`; when it returns a
non-array value the handler throws instead of returning. -/
theorem getDefaultFiltersHandler_cases {V : Type}
    (df? : Option ((String → V) → DFValue V)) (record? : Option (String → V)) :
    (df? = none → getDefaultFiltersHandler df? record? =
        .ok { ok := false, error := some "No default filters function defined", filters := none }) ∧
    (∀ df, df? = some df → record? = none → getDefaultFiltersHandler df? record? =
        .ok { ok := false, error := some "No record provided in request body", filters := none }) ∧
    (∀ df record fs, df? = some df → record? = some record → df record = .arr fs →
        getDefaultFiltersHandler df? record? =
          .ok { ok := true, error := none, filters := some fs }) ∧
    (∀ df record, df? = some df → record? = some record → df record = .nonArray →
        getDefaultFiltersHandler df? record? =
          .error "defauiltFilters must return an array of FilterParams") := by
  refine ⟨?_, ?_, ?_, ?_⟩
  · intro h; subst h; rfl
  · intro df h hr; subst h; subst hr; rfl
  · intro df record fs h hr harr; subst h; subst hr
    simp [getDefaultFiltersHandler, harr]
  · intro df record h hr hna; subst h; subst hr
    simp [getDefaultFiltersHandler, hna]

/-- Witness for C6: a run of the handler on a configured callback and a
present record, returning the computed filters. -/
theorem getDefaultFiltersHandler_cases_witness :
    dfGood recA = DFValue.arr [{ field := "age", operator := "gt", value := "v_age" }] ∧
    getDefaultFiltersHandler (some dfGood) (some recA) =
      .ok { ok := true, error := none
          , filters := some [{ field := "age", operator := "gt", value := "v_age" }] } :=
  ⟨rfl, (getDefaultFiltersHandler_cases (some dfGood) (some recA)).2.2.1 dfGood recA _ rfl rfl rfl⟩

/-- Counterexample to C6 as stated: with a record present and
`defaultFilters` configured, a non-array callback result makes the
handler throw an Error instead of returning an `{ ok := true, filters }`
payload. -/
theorem getDefaultFiltersHandler_nonarray_throws_cex :
    getDefaultFiltersHandler (some dfBad) (some recA) =
      .error "defauiltFilters must return an array of FilterParams" := rfl

/-- C7 (amended): every failure payload of the `get_default_filters`
handler carries an error string which the component surfaces as an error
toast, and a `start_bulk_action` error payload is likewise surfaced as a
toast; the only exception is the non-array `defaultFilters` validation,
which throws from the handler (see the counterexample). -/
theorem pluginErrors_surfaced_as_toasts {V : Type}
    (df? : Option ((String → V) → DFValue V)) (record? : Option (String → V))
    (resp : DFResponse V) (bresp : BulkResponse) (msg : String) :
    (getDefaultFiltersHandler df? record? = .ok resp → resp.ok = false →
      resp.error.isSome = true ∧
      getDefaultFiltersClient resp = .toastError (resp.error.getD "")) ∧
    (bresp.error = some msg → (startBulkActionClient bresp).errorToast = some msg) := by
  constructor
  · intro hok hfail
    match hdf : df? with
    | none =>
      simp [getDefaultFiltersHandler] at hok
      subst hok
      exact ⟨rfl, rfl⟩
    | some df =>
      match hrec : record? with
      | none =>
        simp [getDefaultFiltersHandler] at hok
        subst hok
        exact ⟨rfl, rfl⟩
      | some record =>
        match hv : df record with
        | .nonArray => simp [getDefaultFiltersHandler, hv] at hok
        | .arr fs =>
          simp [getDefaultFiltersHandler, hv] at hok
          subst hok
          simp at hfail
  · intro herr
    simp [startBulkActionClient, herr]

/-- Witness for C7: the missing-configuration failure payload is turned
into an error toast by the component. -/
theorem pluginErrors_surfaced_as_toasts_witness :
    getDefaultFiltersHandler (V := String) none none =
      .ok { ok := false, error := some "No default filters function defined", filters := none } ∧
    getDefaultFiltersClient
      ({ ok := false, error := some "No default filters function defined", filters := none } :
        DFResponse String) =
      .toastError "No default filters function defined" :=
  ⟨rfl,
    ((pluginErrors_surfaced_as_toasts (V := String) none none
      { ok := false, error := some "No default filters function defined", filters := none }
      { ok := false, error := none, successMessage := none } "m").1 rfl rfl).2⟩

/-- Counterexample to C7 as stated: the non-array `defaultFilters`
validation is a failure path of the plugin's request handling that is an
uncaught throw from the handler, not an `{ error: string }` payload. -/
theorem getDefaultFiltersHandler_uncaught_throw_cex :
    getDefaultFiltersHandler (some dfBad2) (some (fun _ => "x")) =
      .error "defauiltFilters must return an array of FilterParams" := rfl

/-- C8: a bulk action whose `allowed` predicate is false is not executed;
the server (modelled from the spec) answers with an error payload, which
the component surfaces as an error toast instead of clearing the
selection or refreshing the list; the request body carries exactly the
selected record ids. -/
theorem bulkAction_blocked_when_not_allowed (allowed : Bool) (sm : Option String)
    (listResourceId actionId : String) (checkboxes : List String) :
    (bulkRequestBody listResourceId actionId checkboxes).recordIds = checkboxes ∧
    (allowed = false →
      (startBulkActionServer allowed sm).executed = false ∧
      (startBulkActionServer allowed sm).response.error = some "Action is not allowed" ∧
      (startBulkActionClient (startBulkActionServer allowed sm).response).errorToast =
        some "Action is not allowed" ∧
      (startBulkActionClient (startBulkActionServer allowed sm).response).listRefreshed = false ∧
      (startBulkActionClient (startBulkActionServer allowed sm).response).checkboxesCleared = false) := by
  refine ⟨rfl, ?_⟩
  intro h
  subst h
  exact ⟨rfl, rfl, rfl, rfl, rfl⟩

/-- Witness for C8: a disallowed bulk action on a concrete selection is
blocked and produces a toast. -/
theorem bulkAction_blocked_when_not_allowed_witness :
    (bulkRequestBody "comments" "delete" ["1", "2"]).recordIds = ["1", "2"] ∧
    (startBulkActionServer false none).executed = false ∧
    (startBulkActionClient (startBulkActionServer false none).response).errorToast =
      some "Action is not allowed" :=
  ⟨(bulkAction_blocked_when_not_allowed false none "comments" "delete" ["1", "2"]).1,
   ((bulkAction_blocked_when_not_allowed false none "comments" "delete" ["1", "2"]).2 rfl).1,
   ((bulkAction_blocked_when_not_allowed false none "comments" "delete" ["1", "2"]).2 rfl).2.2.1⟩

/-- C3 (amended): the filter list `getList` sends is the default filters
followed by the user filters and, unless
`disableForeignListResourceRefColumn` is set, one final `eq` filter on
the foreign ref column with the record's primary-key value — provided
that ref column exists; when no column of the list resource references
the host resource, the empty filter list is sent (after an error
toast). -/
theorem endFilters_merge_order {V : Type} (lr hostResource : Resource)
    (record : String → V) (refPk : V → V)
    (defaultFilters userFilters : List (FilterParam V)) :
    (endFilters (some lr) true hostResource record refPk defaultFilters userFilters =
        some (defaultFilters ++ userFilters)) ∧
    (∀ refCol pk, listResourceRefColumn hostResource.resourceId false lr = some refCol →
        hostResource.columns.find? (fun c => c.primaryKey) = some pk →
        endFilters (some lr) false hostResource record refPk defaultFilters userFilters =
          some (defaultFilters ++ userFilters ++
            [{ field := refCol.name, operator := "eq"
             , value := match pk.foreignResource with
                 | some _ => refPk (record pk.name)
                 | none => record pk.name }])) ∧
    (listResourceRefColumn hostResource.resourceId false lr = none →
        endFilters (some lr) false hostResource record refPk defaultFilters userFilters =
          some []) := by
  refine ⟨rfl, ?_, ?_⟩
  · intro refCol pk h1 h2
    simp [endFilters, h1, h2]
  · intro h1
    simp [endFilters, h1]

/-- Witness for C3: on a list resource with a back-reference to the host,
the sent filters are the default filters, then the user filters, then the
single `eq` constraint on the ref column. -/
theorem endFilters_merge_order_witness :
    listResourceRefColumn hostPosts.resourceId false lrWithRef =
      some { name := "postId", label := "Post", virtual := false
           , foreignResource := some { resourceId := "posts", polymorphicResources := none
                                     , polymorphicOn := none }
           , primaryKey := false } ∧
    hostPosts.columns.find? (fun c => c.primaryKey) =
      some { name := "id", label := "Id", virtual := false
           , foreignResource := none, primaryKey := true } ∧
    endFilters (V := String) (some lrWithRef) false hostPosts recA id dfltFilters [] =
      some (dfltFilters ++ [] ++ [{ field := "postId", operator := "eq", value := "v_id" }]) :=
  ⟨rfl, rfl,
    (endFilters_merge_order lrWithRef hostPosts recA id dfltFilters []).2.1 _ _ rfl rfl⟩

/-- Counterexample to C3 as stated: with a nonempty default filter list
but a list resource that has no column referencing the host, the fetch
issued by the component sends the empty filter list — not the default
filters followed by user filters and an `eq` constraint. -/
theorem endFilters_missing_ref_cex :
    endFilters (V := String) (some lrNoRef) false hostPosts recA id dfltFilters [] = some [] ∧
    ({ field := "df", operator := "eq", value := "1" } : FilterParam String) ∉
      ([] : List (FilterParam String)) :=
  ⟨rfl, by simp⟩

/-- C1: when no registered resource has the configured
`foreignResourceId`, `modifyResourceConfig` throws an Error whose message
contains the missing id and, when `suggestIfTypo` finds a similar id, a
typo suggestion; when the resource exists, it is resolved as the
plugin's foreign resource. -/
theorem modifyResourceConfig_foreign_resolution
    (suggest : List String → String → Option String)
    (ctorActivation : String → String → Int) (mtrc : Option (Resource → Resource))
    (options : PluginOptions) (cfg : Config) (host : Resource) :
    (cfg.resources.find? (fun r => r.resourceId == options.foreignResourceId) = none →
      modifyResourceConfig suggest ctorActivation mtrc options cfg host =
        .error (missingResourceMsg options.foreignResourceId
          (suggest (cfg.resources.map (·.resourceId)) options.foreignResourceId)) ∧
      (∃ pre post, missingResourceMsg options.foreignResourceId
          (suggest (cfg.resources.map (·.resourceId)) options.foreignResourceId) =
            pre ++ options.foreignResourceId ++ post) ∧
      (∀ s, suggest (cfg.resources.map (·.resourceId)) options.foreignResourceId = some s →
        ∃ pre post, missingResourceMsg options.foreignResourceId (some s) =
          pre ++ ("Did you mean \"" ++ s ++ "\"?") ++ post)) ∧
    (∀ fr out, cfg.resources.find? (fun r => r.resourceId == options.foreignResourceId) = some fr →
      modifyResourceConfig suggest ctorActivation mtrc options cfg host = .ok out →
      out.foreignResource = fr ∧ fr.resourceId = options.foreignResourceId) := by
  constructor
  · intro hnone
    refine ⟨?_, ?_, ?_⟩
    · unfold modifyResourceConfig
      rw [hnone]
    · exact ⟨"ForeignInlineListPlugin: Resource with ID \"",
        "\" not found. " ++
          (match suggest (cfg.resources.map (·.resourceId)) options.foreignResourceId with
           | some s => "Did you mean \"" ++ s ++ "\"?"
           | none => ""),
        by simp only [missingResourceMsg, String.append_assoc]⟩
    · intro s hs
      exact ⟨"ForeignInlineListPlugin: Resource with ID \"" ++ options.foreignResourceId ++
          "\" not found. ", "",
        by simp only [missingResourceMsg, String.append_assoc, String.append_empty]⟩
  · intro fr out hfind hok
    have hpred := List.find?_some hfind
    obtain ⟨foreign, ropts', cols', hf, hp, hout⟩ :=
      modifyResourceConfig_ok_inv suggest ctorActivation mtrc options cfg host out hok
    rw [hfind] at hf
    injection hf with hf
    subst hf
    subst hout
    exact ⟨rfl, by simpa using hpred⟩

/-- Witness for C1: a configuration naming a missing resource id with a
similar registered id throws the typo-suggestion message. -/
theorem modifyResourceConfig_foreign_resolution_witness :
    ({ resources := [hostPosts, lrWithRef] } : Config).resources.find?
      (fun r => r.resourceId == "postz") = none ∧
    modifyResourceConfig (fun _ _ => some "posts") (fun _ _ => 0) none
      { foreignResourceId := "postz", placeInGroup := none
      , disableForeignListResourceRefColumn := false }
      { resources := [hostPosts, lrWithRef] } lrWithRef =
      .error (missingResourceMsg "postz" (some "posts")) :=
  ⟨rfl,
    ((modifyResourceConfig_foreign_resolution (fun _ _ => some "posts") (fun _ _ => 0) none
      { foreignResourceId := "postz", placeInGroup := none
      , disableForeignListResourceRefColumn := false }
      { resources := [hostPosts, lrWithRef] } lrWithRef).1 rfl).1⟩

/-- C5: with `placeInGroup` naming an existing group, an out-of-bounds
position makes `modifyResourceConfig` throw at setup time (for a group
found in `fieldGroups`, with the message stating the valid bounds `0` to
the group's length); a position within bounds for every matched group
never triggers the invalid-position throw, and with the foreign resource
resolved the run succeeds. -/
theorem modifyResourceConfig_position_bounds
    (suggest : List String → String → Option String)
    (ctorActivation : String → String → Int) (mtrc : Option (Resource → Resource))
    (options : PluginOptions) (cfg : Config) (host : Resource) (pig : PlaceInGroup) :
    (options.placeInGroup = some pig → ¬ pig.name = "" →
      ∀ g, ((host.options.bind (·.fieldGroups)).getD []).find?
          (fun g0 => g0.groupName == pig.name) = some g →
        (pig.position < 0 ∨ (g.columns.length : Int) < pig.position) →
        ∀ fr, cfg.resources.find? (fun r => r.resourceId == options.foreignResourceId) = some fr →
        modifyResourceConfig suggest ctorActivation mtrc options cfg host =
          .error (invalidPositionMsg pig.position g.columns.length pig.name)) ∧
    (options.placeInGroup = some pig → ¬ pig.name = "" →
      (∃ gs? ∈ groupCollections host.options, ∃ g,
        (gs?.getD []).find? (fun g0 => g0.groupName == pig.name) = some g ∧
        (pig.position < 0 ∨ (g.columns.length : Int) < pig.position)) →
      (modifyResourceConfig suggest ctorActivation mtrc options cfg host).isOk = false) ∧
    (options.placeInGroup = some pig → ¬ pig.name = "" →
      ∀ fr, cfg.resources.find? (fun r => r.resourceId == options.foreignResourceId) = some fr →
      (∀ gs? ∈ groupCollections host.options, ∀ g,
        (gs?.getD []).find? (fun g0 => g0.groupName == pig.name) = some g →
        0 ≤ pig.position ∧ pig.position ≤ (g.columns.length : Int)) →
      (modifyResourceConfig suggest ctorActivation mtrc options cfg host).isOk = true) := by
  refine ⟨?_, ?_, ?_⟩
  · intro hpig hname g hfind hbad fr hfr
    have h1 := groupStep_eq_found_err pig.name pig.position (newColumn fr.resourceId)
      (host.options.bind (·.fieldGroups)) (host.columns, false) g hfind hbad
    have hpc := placeColumn_step1_err pig host.options host.columns (newColumn fr.resourceId)
      (invalidPositionMsg pig.position g.columns.length pig.name) hname h1
    exact modifyResourceConfig_eq_err suggest ctorActivation mtrc options cfg host fr
      (invalidPositionMsg pig.position g.columns.length pig.name) hfr (by rw [hpig]; exact hpc)
  · intro hpig hname hbad
    cases hres : modifyResourceConfig suggest ctorActivation mtrc options cfg host with
    | error e => rfl
    | ok out =>
      exfalso
      obtain ⟨foreign, ropts', cols', hf, hp, _⟩ :=
        modifyResourceConfig_ok_inv suggest ctorActivation mtrc options cfg host out hres
      rw [hpig] at hp
      obtain ⟨gs?, hmem, g, hfind, hbadpos⟩ := hbad
      have hb := placeColumn_ok_bounds pig host.options host.columns
        (newColumn foreign.resourceId) (ropts', cols') hp hname gs? hmem g hfind
      omega
  · intro hpig hname fr hfr hb
    cases hp : placeColumn (some pig) host.options host.columns (newColumn fr.resourceId) with
    | error e =>
      have := placeColumn_isOk_of_bounds pig host.options host.columns
        (newColumn fr.resourceId) hname hb
      rw [hp] at this
      exact absurd this (by simp [Except.isOk, Except.toBool])
    | ok pr =>
      obtain ⟨ropts', cols'⟩ := pr
      rw [modifyResourceConfig_eq_ok suggest ctorActivation mtrc options cfg host fr
        ropts' cols' hfr (by rw [hpig]; exact hp)]
      rfl

/-- Witness for C5: on a two-column group, position 5 throws the message
naming the bounds 0 to 2, and position 1 activates without throwing. -/
theorem modifyResourceConfig_position_bounds_witness :
    modifyResourceConfig (fun _ _ => none) (fun _ _ => 0) none (optsPig pigOut)
      cfgGrouped hostGrouped = .error (invalidPositionMsg 5 2 "main") ∧
    (modifyResourceConfig (fun _ _ => none) (fun _ _ => 0) none (optsPig pigIn)
      cfgGrouped hostGrouped).isOk = true := by
  constructor
  · exact (modifyResourceConfig_position_bounds (fun _ _ => none) (fun _ _ => 0) none
      (optsPig pigOut) cfgGrouped hostGrouped pigOut).1 rfl (by decide)
      { groupName := "main", columns := ["a", "b"] } rfl (by decide) hostPosts rfl
  · refine (modifyResourceConfig_position_bounds (fun _ _ => none) (fun _ _ => 0) none
      (optsPig pigIn) cfgGrouped hostGrouped pigIn).2.2 rfl (by decide) hostPosts rfl ?_
    intro gs? hmem g hfind
    simp only [hostGrouped, groupCollections, groupedOptions, Option.bind_some,
      List.mem_cons, List.not_mem_nil, or_false] at hmem
    rcases hmem with h | h | h | h
    · subst h
      simp [pigIn] at hfind
      subst hfind
      decide
    · subst h; simp at hfind
    · subst h; simp at hfind
    · subst h; simp at hfind

/-- A successful `groupStep` that matched a group updated the collection
with `updateFirstGroup` and, when the column was still unplaced, inserted
it via `insertAt`. -/
theorem groupStep_found_updates (gname : String) (pos : Int) (nc : Column)
    (gs? : Option (List FieldGroup)) (st : List Column × Bool)
    (res : Option (List FieldGroup)) (st' : List Column × Bool) (g : FieldGroup)
    (hok : groupStep gname pos nc gs? st = .ok (res, st'))
    (hfind : (gs?.getD []).find? (fun g0 => g0.groupName == gname) = some g) :
    res = some (updateFirstGroup (gs?.getD []) gname
      (fun g0 => { g0 with columns := List.insertIdx pos.toNat nc.name g0.columns })) ∧
    st' = (if st.2 then st else (insertAt st.1 nc g pos.toNat, true)) := by
  obtain ⟨h0, h1⟩ := groupStep_ok_bounds gname pos nc gs? st (res, st') hok g hfind
  rw [groupStep_eq_found gname pos nc gs? st g hfind h0 h1] at hok
  injection hok with h
  exact ⟨(congrArg Prod.fst h).symm, (congrArg Prod.snd h).symm⟩

/-- Looking up the group name after `updateFirstGroup` finds the first
matching group with the name inserted at the position. -/
theorem find?_updateFirstGroup_insert (gs : List FieldGroup) (gname : String)
    (p : Nat) (ncName : String) (g : FieldGroup)
    (hfind : gs.find? (fun g0 => g0.groupName == gname) = some g) :
    (updateFirstGroup gs gname
        (fun g0 => { g0 with columns := List.insertIdx p ncName g0.columns })).find?
      (fun g0 => g0.groupName == gname) =
      some { g with columns := List.insertIdx p ncName g.columns } := by
  rw [updateFirstGroup_find? gs gname
      (fun g0 => { g0 with columns := List.insertIdx p ncName g0.columns })
      (fun g0 => rfl), hfind]
  rfl

/-- Combination: a successful matching `groupStep` leaves a collection in
which the first group with the name carries the inserted column name. -/
theorem groupStep_found_find? (pig : PlaceInGroup) (nc : Column)
    (gs? : Option (List FieldGroup)) (st st' : List Column × Bool)
    (res : Option (List FieldGroup)) (g : FieldGroup)
    (hok : groupStep pig.name pig.position nc gs? st = .ok (res, st'))
    (hfind : (gs?.getD []).find? (fun g0 => g0.groupName == pig.name) = some g) :
    ∃ gs', res = some gs' ∧
      gs'.find? (fun g0 => g0.groupName == pig.name) =
        some { g with columns := List.insertIdx pig.position.toNat nc.name g.columns } := by
  obtain ⟨hres, _⟩ :=
    groupStep_found_updates pig.name pig.position nc gs? st res st' g hok hfind
  exact ⟨_, hres, find?_updateFirstGroup_insert _ _ _ _ _ hfind⟩

/-- C4 (amended): with `placeInGroup` set to a nonempty group name, the
virtual column's name is inserted at index `position` into the first
group of that name within each of the four group collections
(later duplicate-named groups in a collection stay unchanged), and the
column itself is added to the host's columns exactly once — at the front
when `position` is `0`, otherwise immediately after the first host column
whose name is the matched group's entry at `position - 1` (shown for a
group matched in `fieldGroups`); with no `placeInGroup`, the column is
appended at the end of the host's columns. -/
theorem modifyResourceConfig_column_placement
    (suggest : List String → String → Option String)
    (ctorActivation : String → String → Int) (mtrc : Option (Resource → Resource))
    (options : PluginOptions) (cfg : Config) (host : Resource) (pig : PlaceInGroup) :
    (options.placeInGroup = none →
      ∀ out, modifyResourceConfig suggest ctorActivation mtrc options cfg host = .ok out →
        out.hostResource.columns = host.columns ++ [newColumn out.foreignResource.resourceId]) ∧
    (options.placeInGroup = some pig → ¬ pig.name = "" →
      ∀ out, modifyResourceConfig suggest ctorActivation mtrc options cfg host = .ok out →
      ∀ g, ((host.options.bind (·.fieldGroups)).getD []).find?
          (fun g0 => g0.groupName == pig.name) = some g →
        ∃ gs', out.hostResource.options.bind (·.fieldGroups) = some gs' ∧
          gs'.find? (fun g0 => g0.groupName == pig.name) =
            some { g with columns := (List.insertIdx pig.position.toNat
              (newColumn out.foreignResource.resourceId).name g.columns) }) ∧
    (options.placeInGroup = some pig → ¬ pig.name = "" →
      ∀ out, modifyResourceConfig suggest ctorActivation mtrc options cfg host = .ok out →
      ∀ g, ((host.options.bind (·.createFieldGroups)).getD []).find?
          (fun g0 => g0.groupName == pig.name) = some g →
        ∃ gs', out.hostResource.options.bind (·.createFieldGroups) = some gs' ∧
          gs'.find? (fun g0 => g0.groupName == pig.name) =
            some { g with columns := (List.insertIdx pig.position.toNat
              (newColumn out.foreignResource.resourceId).name g.columns) }) ∧
    (options.placeInGroup = some pig → ¬ pig.name = "" →
      ∀ out, modifyResourceConfig suggest ctorActivation mtrc options cfg host = .ok out →
      ∀ g, ((host.options.bind (·.editFieldGroups)).getD []).find?
          (fun g0 => g0.groupName == pig.name) = some g →
        ∃ gs', out.hostResource.options.bind (·.editFieldGroups) = some gs' ∧
          gs'.find? (fun g0 => g0.groupName == pig.name) =
            some { g with columns := (List.insertIdx pig.position.toNat
              (newColumn out.foreignResource.resourceId).name g.columns) }) ∧
    (options.placeInGroup = some pig → ¬ pig.name = "" →
      ∀ out, modifyResourceConfig suggest ctorActivation mtrc options cfg host = .ok out →
      ∀ g, ((host.options.bind (·.showFieldGroups)).getD []).find?
          (fun g0 => g0.groupName == pig.name) = some g →
        ∃ gs', out.hostResource.options.bind (·.showFieldGroups) = some gs' ∧
          gs'.find? (fun g0 => g0.groupName == pig.name) =
            some { g with columns := (List.insertIdx pig.position.toNat
              (newColumn out.foreignResource.resourceId).name g.columns) }) ∧
    (options.placeInGroup = some pig → ¬ pig.name = "" →
      ∀ out, modifyResourceConfig suggest ctorActivation mtrc options cfg host = .ok out →
      ∀ g, ((host.options.bind (·.fieldGroups)).getD []).find?
          (fun g0 => g0.groupName == pig.name) = some g →
        (pig.position = 0 →
          out.hostResource.columns =
            newColumn out.foreignResource.resourceId :: host.columns) ∧
        (∀ bn i, 1 ≤ pig.position →
          g.columns.get? (pig.position.toNat - 1) = some bn →
          host.columns.findIdx? (fun c => c.name == bn) = some i →
          out.hostResource.columns =
            List.insertIdx (i + 1) (newColumn out.foreignResource.resourceId) host.columns)) := by
  refine ⟨?_, ?_, ?_, ?_, ?_, ?_⟩
  · intro hpig out hok
    obtain ⟨foreign, ropts', cols', hf, hp, hout⟩ :=
      modifyResourceConfig_ok_inv suggest ctorActivation mtrc options cfg host out hok
    rw [hpig] at hp
    unfold placeColumn at hp
    dsimp only at hp
    injection hp with hpr
    rw [Prod.mk.injEq] at hpr
    subst hout
    show cols' = _
    rw [← hpr.2]
    rfl
  · intro hpig hname out hok g hfind
    obtain ⟨foreign, ropts', cols', hf, hp, hout⟩ :=
      modifyResourceConfig_ok_inv suggest ctorActivation mtrc options cfg host out hok
    rw [hpig] at hp
    obtain ⟨fg, st1, cg, st2, eg, st3, sg, st4, h1, h2, h3, h4, hsnd, hnone, hsome⟩ :=
      placeColumn_some_inv pig host.options host.columns (newColumn foreign.resourceId)
        (ropts', cols') hp hname
    obtain ⟨gs', hres, hfr⟩ := groupStep_found_find? pig (newColumn foreign.resourceId)
      (host.options.bind (·.fieldGroups)) (host.columns, false) st1 fg g h1 hfind
    cases hO : host.options with
    | none => rw [hO] at hfind; simp at hfind
    | some o =>
      subst hout
      refine ⟨gs', ?_, hfr⟩
      show ropts'.bind (·.fieldGroups) = some gs'
      rw [show ropts' = some { fieldGroups := fg, createFieldGroups := cg
                              , editFieldGroups := eg, showFieldGroups := sg } from hsome o hO]
      exact hres
  · intro hpig hname out hok g hfind
    obtain ⟨foreign, ropts', cols', hf, hp, hout⟩ :=
      modifyResourceConfig_ok_inv suggest ctorActivation mtrc options cfg host out hok
    rw [hpig] at hp
    obtain ⟨fg, st1, cg, st2, eg, st3, sg, st4, h1, h2, h3, h4, hsnd, hnone, hsome⟩ :=
      placeColumn_some_inv pig host.options host.columns (newColumn foreign.resourceId)
        (ropts', cols') hp hname
    obtain ⟨gs', hres, hfr⟩ := groupStep_found_find? pig (newColumn foreign.resourceId)
      (host.options.bind (·.createFieldGroups)) st1 st2 cg g h2 hfind
    cases hO : host.options with
    | none => rw [hO] at hfind; simp at hfind
    | some o =>
      subst hout
      refine ⟨gs', ?_, hfr⟩
      show ropts'.bind (·.createFieldGroups) = some gs'
      rw [show ropts' = some { fieldGroups := fg, createFieldGroups := cg
                              , editFieldGroups := eg, showFieldGroups := sg } from hsome o hO]
      exact hres
  · intro hpig hname out hok g hfind
    obtain ⟨foreign, ropts', cols', hf, hp, hout⟩ :=
      modifyResourceConfig_ok_inv suggest ctorActivation mtrc options cfg host out hok
    rw [hpig] at hp
    obtain ⟨fg, st1, cg, st2, eg, st3, sg, st4, h1, h2, h3, h4, hsnd, hnone, hsome⟩ :=
      placeColumn_some_inv pig host.options host.columns (newColumn foreign.resourceId)
        (ropts', cols') hp hname
    obtain ⟨gs', hres, hfr⟩ := groupStep_found_find? pig (newColumn foreign.resourceId)
      (host.options.bind (·.editFieldGroups)) st2 st3 eg g h3 hfind
    cases hO : host.options with
    | none => rw [hO] at hfind; simp at hfind
    | some o =>
      subst hout
      refine ⟨gs', ?_, hfr⟩
      show ropts'.bind (·.editFieldGroups) = some gs'
      rw [show ropts' = some { fieldGroups := fg, createFieldGroups := cg
                              , editFieldGroups := eg, showFieldGroups := sg } from hsome o hO]
      exact hres
  · intro hpig hname out hok g hfind
    obtain ⟨foreign, ropts', cols', hf, hp, hout⟩ :=
      modifyResourceConfig_ok_inv suggest ctorActivation mtrc options cfg host out hok
    rw [hpig] at hp
    obtain ⟨fg, st1, cg, st2, eg, st3, sg, st4, h1, h2, h3, h4, hsnd, hnone, hsome⟩ :=
      placeColumn_some_inv pig host.options host.columns (newColumn foreign.resourceId)
        (ropts', cols') hp hname
    obtain ⟨gs', hres, hfr⟩ := groupStep_found_find? pig (newColumn foreign.resourceId)
      (host.options.bind (·.showFieldGroups)) st3 st4 sg g h4 hfind
    cases hO : host.options with
    | none => rw [hO] at hfind; simp at hfind
    | some o =>
      subst hout
      refine ⟨gs', ?_, hfr⟩
      show ropts'.bind (·.showFieldGroups) = some gs'
      rw [show ropts' = some { fieldGroups := fg, createFieldGroups := cg
                              , editFieldGroups := eg, showFieldGroups := sg } from hsome o hO]
      exact hres
  · intro hpig hname out hok g hfind
    obtain ⟨foreign, ropts', cols', hf, hp, hout⟩ :=
      modifyResourceConfig_ok_inv suggest ctorActivation mtrc options cfg host out hok
    rw [hpig] at hp
    obtain ⟨fg, st1, cg, st2, eg, st3, sg, st4, h1, h2, h3, h4, hsnd, hnone, hsome⟩ :=
      placeColumn_some_inv pig host.options host.columns (newColumn foreign.resourceId)
        (ropts', cols') hp hname
    obtain ⟨hres1, hst1⟩ := groupStep_found_updates pig.name pig.position
      (newColumn foreign.resourceId) (host.options.bind (·.fieldGroups))
      (host.columns, false) fg st1 g h1 hfind
    dsimp only at hst1
    rw [hst1] at h2
    have hst2 := groupStep_ok_added pig.name pig.position (newColumn foreign.resourceId)
      (host.options.bind (·.createFieldGroups)) _ _ h2
    dsimp only at hst2
    rw [hst2] at h3
    have hst3 := groupStep_ok_added pig.name pig.position (newColumn foreign.resourceId)
      (host.options.bind (·.editFieldGroups)) _ _ h3
    dsimp only at hst3
    rw [hst3] at h4
    have hst4 := groupStep_ok_added pig.name pig.position (newColumn foreign.resourceId)
      (host.options.bind (·.showFieldGroups)) _ _ h4
    dsimp only at hst4
    have hcols : cols' = insertAt host.columns (newColumn foreign.resourceId) g
        pig.position.toNat := by
      rw [show cols' = st4.1 from hsnd, hst4]
    subst hout
    constructor
    · intro hpos0
      show cols' = _
      rw [hcols, hpos0]
      unfold insertAt
      rfl
    · intro bn i hpos1 hbn hidx
      have hp0 : ¬ (pig.position.toNat = 0) := by omega
      show cols' = _
      rw [hcols]
      unfold insertAt
      rw [if_neg hp0, hbn]
      dsimp only
      rw [hidx]
      dsimp only
      have hti : ((i : Int) + 1).toNat = i + 1 := by omega
      rw [hti]
      rfl

/-- Counterexample to C4 as stated: two groups named `g` in
`fieldGroups`; the column name is spliced into the first one only, while
the claim requires it at index `position` of each matching group (the
second group keeps columns `["b"]`). -/
theorem placeColumn_duplicate_group_cex :
    placeColumn (some { name := "g", position := 1 })
      (some { fieldGroups := some [{ groupName := "g", columns := ["a"] }
                                  , { groupName := "g", columns := ["b"] }]
            , createFieldGroups := none, editFieldGroups := none, showFieldGroups := none })
      [colA, colB] (newColumn "posts") =
      .ok (some { fieldGroups := some
                    [{ groupName := "g", columns := ["a", "foreignInlineList_posts"] }
                    , { groupName := "g", columns := ["b"] }]
                , createFieldGroups := none, editFieldGroups := none
                , showFieldGroups := none }
          , [colA, newColumn "posts", colB]) ∧
    (["b"] : List String) ≠ ["b", "foreignInlineList_posts"] :=
  ⟨rfl, by decide⟩

/-- Witness for C4: the in-bounds grouped run inserts the virtual
column's name at index 1 of the `main` group and the column itself right
after column `a`. -/
theorem modifyResourceConfig_column_placement_witness :
    modifyResourceConfig (fun _ _ => none) (fun _ _ => 0) none (optsPig pigIn)
      cfgGrouped hostGrouped = .ok outPlacedW ∧
    (∃ gs', outPlacedW.hostResource.options.bind (·.fieldGroups) = some gs' ∧
      gs'.find? (fun g0 => g0.groupName == "main") =
        some { groupName := "main"
             , columns := List.insertIdx 1 "foreignInlineList_posts" ["a", "b"] }) ∧
    outPlacedW.hostResource.columns =
      List.insertIdx 1 (newColumn "posts") [colA, colB] :=
  ⟨rfl,
    (modifyResourceConfig_column_placement (fun _ _ => none) (fun _ _ => 0) none
      (optsPig pigIn) cfgGrouped hostGrouped pigIn).2.1 rfl (by decide) outPlacedW rfl
      { groupName := "main", columns := ["a", "b"] } rfl,
    ((modifyResourceConfig_column_placement (fun _ _ => none) (fun _ _ => 0) none
      (optsPig pigIn) cfgGrouped hostGrouped pigIn).2.2.2.2.2 rfl (by decide) outPlacedW rfl
      { groupName := "main", columns := ["a", "b"] } rfl).2 "a" 0 (by decide) rfl rfl⟩

/-- In a non-self-referencing installation the outcome is built from the
original foreign resource (the clone source is not the host). -/
theorem mkOutcome_eq_of_ne (ctorActivation : String → String → Int)
    (mtrc : Option (Resource → Resource)) (foreign : Resource) (cfg : Config)
    (host : Resource) (ropts' : Option ResourceOptions) (cols' : List Column)
    (hne : ¬ foreign.resourceId = host.resourceId) :
    mkOutcome ctorActivation mtrc foreign cfg host ropts' cols' =
      { foreignResource := foreign
      , hostResource := { host with options := ropts', columns := cols' }
      , pushedCopy := pushedCopyOf foreign host
      , copy := copyFinalOf ctorActivation mtrc foreign host
      , config := { resources :=
          cfg.resources.map (fun r => if r.resourceId == host.resourceId
            then { host with options := ropts', columns := cols' } else r) ++
          [copyFinalOf ctorActivation mtrc foreign host] }
      , activationTrace := (copyFinalOf ctorActivation mtrc foreign host).plugins } := by
  have hcond : ¬ ((foreign.resourceId == host.resourceId) = true) := by
    simp only [beq_iff_eq]
    exact hne
  unfold mkOutcome
  dsimp only
  rw [if_neg hcond]
  rfl

/-- `sortPlugins` yields a list ascending in activation order. -/
theorem sortPlugins_sorted (ps : List PluginInst) :
    List.Pairwise (fun a b => a.activationOrder ≤ b.activationOrder) (sortPlugins ps) := by
  have h := @List.sorted_mergeSort PluginInst
    (fun a b => decide (a.activationOrder ≤ b.activationOrder))
    (by intro a b c hab hbc; simp only [decide_eq_true_eq] at hab hbc ⊢; omega)
    (by intro a b; simp only [Bool.or_eq_true, decide_eq_true_eq]; omega)
    ps
  exact h.imp (fun hab => by simpa using hab)

/-- Membership is preserved by the activation sort. -/
theorem mem_sortPlugins (ps : List PluginInst) (p : PluginInst) :
    p ∈ sortPlugins ps ↔ p ∈ ps :=
  (List.mergeSort_perm ps (fun a b => decide (a.activationOrder ≤ b.activationOrder))).mem_iff

/-- `setRefTarget` does not change the column's name. -/
theorem setRefTarget_name (c : Column) (x : String) : (setRefTarget c x).name = c.name := by
  unfold setRefTarget
  cases c.foreignResource <;> rfl

/-- The unique column referencing the target appears rewired in the
result of `rewireFirst`. -/
theorem setRefTarget_mem_rewireFirst (cols : List Column) (target newId : String) (c0 : Column)
    (hmem : c0 ∈ cols) (hc0 : colRefId c0 = some target)
    (huniq : ∀ c ∈ cols, colRefId c = some target → c = c0) :
    setRefTarget c0 newId ∈ rewireFirst cols target newId := by
  induction cols with
  | nil => cases hmem
  | cons c rest ih =>
    unfold rewireFirst
    cases hcf : c.foreignResource with
    | none =>
      have hne : ¬ (c = c0) := by
        intro h
        subst h
        unfold colRefId at hc0
        rw [hcf] at hc0
        exact Option.noConfusion hc0
      have hmem' : c0 ∈ rest := by
        cases hmem with
        | head => exact absurd rfl hne
        | tail _ h => exact h
      exact List.mem_cons_of_mem _
        (ih hmem' (fun c hc hcr => huniq c (List.mem_cons_of_mem _ hc) hcr))
    | some fr =>
      dsimp only
      by_cases ht : (fr.resourceId == target) = true
      · rw [if_pos ht]
        have hcr : colRefId c = some target := by
          unfold colRefId
          rw [hcf, Option.map_some']
          exact congrArg some (beq_iff_eq.mp ht)
        have hceq : c = c0 := huniq c (List.mem_cons_self c rest) hcr
        have hs : setRefTarget c0 newId =
            { c with foreignResource := some { fr with resourceId := newId } } := by
          rw [← hceq]
          unfold setRefTarget
          rw [hcf]
        rw [hs]
        exact List.mem_cons_self _ _
      · rw [if_neg ht]
        have hne : ¬ (c = c0) := by
          intro h
          subst h
          unfold colRefId at hc0
          rw [hcf, Option.map_some'] at hc0
          injection hc0 with hc0
          exact ht (beq_iff_eq.mpr hc0)
        have hmem' : c0 ∈ rest := by
          cases hmem with
          | head => exact absurd rfl hne
          | tail _ h => exact h
        exact List.mem_cons_of_mem _
          (ih hmem' (fun c hc hcr => huniq c (List.mem_cons_of_mem _ hc) hcr))

/-- A `find?` by a foreign id other than the host id is unchanged by the
in-place update of the host entry. -/
theorem find?_map_replace (l : List Resource) (hostId : String) (host' : Resource)
    (fid : String) (hfid : ¬ fid = hostId) (h' : host'.resourceId = hostId) :
    (l.map (fun r => if r.resourceId == hostId then host' else r)).find?
      (fun r => r.resourceId == fid) = l.find? (fun r => r.resourceId == fid) := by
  induction l with
  | nil => rfl
  | cons r rest ih =>
    rw [List.map_cons]
    by_cases hr : (r.resourceId == hostId) = true
    · rw [if_pos hr]
      have hp1 : ¬ ((host'.resourceId == fid) = true) := by
        rw [h', beq_iff_eq]
        exact fun hh => hfid hh.symm
      have hp2 : ¬ ((r.resourceId == fid) = true) := by
        rw [beq_iff_eq.mp hr, beq_iff_eq]
        exact fun hh => hfid hh.symm
      rw [@List.find?_cons_of_neg Resource (fun r => r.resourceId == fid) host' _ hp1,
          @List.find?_cons_of_neg Resource (fun r => r.resourceId == fid) r rest hp2]
      exact ih
    · rw [if_neg hr]
      by_cases hf : (r.resourceId == fid) = true
      · rw [@List.find?_cons_of_pos Resource (fun r => r.resourceId == fid) r _ hf,
            @List.find?_cons_of_pos Resource (fun r => r.resourceId == fid) r rest hf]
      · rw [@List.find?_cons_of_neg Resource (fun r => r.resourceId == fid) r _ hf,
            @List.find?_cons_of_neg Resource (fun r => r.resourceId == fid) r rest hf]
        exact ih

/-- C9: `modifyResourceConfig` builds the virtual resource from a deep
clone, so in a non-self-referencing installation the original foreign
resource entry in the registry — id, columns, options and plugin list —
is exactly the pre-run value, and it is the resolved foreign resource. -/
theorem modifyResourceConfig_preserves_original_foreign
    (suggest : List String → String → Option String)
    (ctorActivation : String → String → Int) (mtrc : Option (Resource → Resource))
    (options : PluginOptions) (cfg : Config) (host : Resource) (fr : Resource)
    (hne : ¬ options.foreignResourceId = host.resourceId)
    (hfind : cfg.resources.find? (fun r => r.resourceId == options.foreignResourceId) = some fr) :
    onOk (modifyResourceConfig suggest ctorActivation mtrc options cfg host)
      (fun out =>
        out.config.resources.find? (fun r => r.resourceId == options.foreignResourceId) =
          some fr ∧
        out.foreignResource = fr) := by
  cases hres : modifyResourceConfig suggest ctorActivation mtrc options cfg host with
  | error e => exact True.intro
  | ok out =>
    obtain ⟨foreign, ropts', cols', hf, hp, hout⟩ :=
      modifyResourceConfig_ok_inv suggest ctorActivation mtrc options cfg host out hres
    rw [hfind] at hf
    injection hf with hf
    subst hf
    have hfid : fr.resourceId = options.foreignResourceId := by
      simpa using List.find?_some hfind
    have hneF : ¬ fr.resourceId = host.resourceId := by
      rw [hfid]
      exact hne
    subst hout
    simp only [onOk]
    rw [mkOutcome_eq_of_ne ctorActivation mtrc fr cfg host ropts' cols' hneF]
    dsimp only
    constructor
    · rw [List.find?_append,
        find?_map_replace cfg.resources host.resourceId
          { host with options := ropts', columns := cols' }
          options.foreignResourceId hne rfl,
        hfind]
      rfl
    · rfl

/-- Witness for C9: after installing on `comments` pointing at `posts`,
the registry still resolves `posts` to the untouched original resource. -/
theorem modifyResourceConfig_preserves_original_foreign_witness :
    (¬ (optsPlain.foreignResourceId = lrWithRef.resourceId)) ∧
    ({ resources := [hostPosts, lrWithRef] } : Config).resources.find?
      (fun r => r.resourceId == optsPlain.foreignResourceId) = some hostPosts ∧
    onOk (modifyResourceConfig (fun _ _ => none) (fun _ _ => 0) none optsPlain
        { resources := [hostPosts, lrWithRef] } lrWithRef)
      (fun out =>
        out.config.resources.find? (fun r => r.resourceId == optsPlain.foreignResourceId) =
          some hostPosts ∧
        out.foreignResource = hostPosts) :=
  ⟨by decide, rfl,
    modifyResourceConfig_preserves_original_foreign (fun _ _ => none) (fun _ _ => 0) none
      optsPlain { resources := [hostPosts, lrWithRef] } lrWithRef hostPosts (by decide) rfl⟩

/-- C2: a successful non-self-referencing run pushes the composed deep
copy into the registry under the id
`<foreignResourceId>_inline_list__from_<hostResourceId>__`; every plugin
of the original foreign resource is re-instantiated (same constructor,
same options) onto the copy; the activation trace is exactly the copy's
plugin list, ascending in activation order; and when the host is itself
a virtual copy, the (unique) column of the clone referencing the original
host id survives to the pushed copy rewired to point at the host's id. -/
theorem modifyResourceConfig_copy_composition
    (suggest : List String → String → Option String)
    (ctorActivation : String → String → Int) (mtrc : Option (Resource → Resource))
    (options : PluginOptions) (cfg : Config) (host : Resource)
    (hne : ¬ options.foreignResourceId = host.resourceId) :
    onOk (modifyResourceConfig suggest ctorActivation mtrc options cfg host)
      (fun out =>
        out.pushedCopy.resourceId =
          options.foreignResourceId ++ inlineListMarker ++ host.resourceId ++ "__" ∧
        out.copy ∈ out.config.resources ∧
        out.activationTrace = out.copy.plugins ∧
        List.Pairwise (fun a b => a.activationOrder ≤ b.activationOrder) out.activationTrace ∧
        (∀ p ∈ out.foreignResource.plugins,
          reinstantiate ctorActivation p ∈ out.copy.plugins) ∧
        ((host.resourceId.splitOn inlineListMarker).length > 1 →
          ∀ c0 ∈ out.foreignResource.columns,
            colRefId c0 = some ((host.resourceId.splitOn inlineListMarker).headD "") →
            (∀ c ∈ out.foreignResource.columns,
              colRefId c = some ((host.resourceId.splitOn inlineListMarker).headD "") →
              c = c0) →
            c0.name.startsWith "foreignInlineList_" = false →
            setRefTarget c0 host.resourceId ∈ out.pushedCopy.columns)) := by
  cases hres : modifyResourceConfig suggest ctorActivation mtrc options cfg host with
  | error e => exact True.intro
  | ok out =>
    obtain ⟨foreign, ropts', cols', hf, hp, hout⟩ :=
      modifyResourceConfig_ok_inv suggest ctorActivation mtrc options cfg host out hres
    have hfid : foreign.resourceId = options.foreignResourceId := by
      simpa using List.find?_some hf
    have hneF : ¬ foreign.resourceId = host.resourceId := by
      rw [hfid]
      exact hne
    subst hout
    simp only [onOk]
    rw [mkOutcome_eq_of_ne ctorActivation mtrc foreign cfg host ropts' cols' hneF]
    dsimp only
    refine ⟨?_, ?_, ?_, ?_, ?_, ?_⟩
    · unfold pushedCopyOf composeCopy
      dsimp only
      rw [hfid]
    · exact List.mem_append.mpr (Or.inr (List.mem_cons_self _ _))
    · rfl
    · show List.Pairwise _ (copyFinalOf ctorActivation mtrc foreign host).plugins
      unfold copyFinalOf
      dsimp only
      exact sortPlugins_sorted _
    · intro p hp2
      show reinstantiate ctorActivation p ∈ (copyFinalOf ctorActivation mtrc foreign host).plugins
      unfold copyFinalOf
      dsimp only
      exact (mem_sortPlugins _ _).mpr
        (List.mem_append.mpr (Or.inr (List.mem_map_of_mem _ hp2)))
    · intro hmark c0 hc0mem hc0ref huniq hc0name
      show setRefTarget c0 host.resourceId ∈ (pushedCopyOf foreign host).columns
      unfold pushedCopyOf composeCopy
      dsimp only
      unfold rewireForeignRefs
      rw [if_pos hmark]
      refine List.mem_filter.mpr
        ⟨setRefTarget_mem_rewireFirst foreign.columns _ _ c0 hc0mem hc0ref huniq, ?_⟩
      rw [setRefTarget_name, hc0name]
      rfl

/-- Witness for C2: installing on `comments` pointing at `posts` pushes
the copy `posts_inline_list__from_comments__` with the composed plugin
chain. -/
theorem modifyResourceConfig_copy_composition_witness :
    (¬ (optsPlain.foreignResourceId = lrWithRef.resourceId)) ∧
    onOk (modifyResourceConfig (fun _ _ => none) (fun _ _ => 0) none optsPlain
        { resources := [hostPosts, lrWithRef] } lrWithRef)
      (fun out =>
        out.pushedCopy.resourceId =
          optsPlain.foreignResourceId ++ inlineListMarker ++ lrWithRef.resourceId ++ "__" ∧
        out.copy ∈ out.config.resources ∧
        out.activationTrace = out.copy.plugins ∧
        List.Pairwise (fun a b => a.activationOrder ≤ b.activationOrder) out.activationTrace ∧
        (∀ p ∈ out.foreignResource.plugins,
          reinstantiate (fun _ _ => 0) p ∈ out.copy.plugins) ∧
        ((lrWithRef.resourceId.splitOn inlineListMarker).length > 1 →
          ∀ c0 ∈ out.foreignResource.columns,
            colRefId c0 = some ((lrWithRef.resourceId.splitOn inlineListMarker).headD "") →
            (∀ c ∈ out.foreignResource.columns,
              colRefId c = some ((lrWithRef.resourceId.splitOn inlineListMarker).headD "") →
              c = c0) →
            c0.name.startsWith "foreignInlineList_" = false →
            setRefTarget c0 lrWithRef.resourceId ∈ out.pushedCopy.columns)) :=
  ⟨by decide,
    modifyResourceConfig_copy_composition (fun _ _ => none) (fun _ _ => 0) none optsPlain
      { resources := [hostPosts, lrWithRef] } lrWithRef (by decide)⟩

end ForeignInlineList
